import Mathlib

/-!
# Verification of `generate_test_meshes.py` (prepro-light test-mesh generator)

Shallow embedding of the sphere-mesh generator and the three serializers
(binary STL, indexed-face OBJ text, structured polygon VTP XML) from
`src/generate_test_meshes.py`, together with theorems settling the frozen
claims about the program.

Modelling conventions:
- Python machine integers are modelled as `Nat`/`Int`; `struct.pack '<I'`
  wraps at `2 ^ 32`, made explicit by `% 2 ^ 32`.
- `int(math.sqrt(num_nodes))` is modelled as `Nat.sqrt` (the exact floor of
  the square root); vertex coordinates, which the Python code computes with
  transcendental float functions, are abstracted by a coordinate function
  `coord i j` for ring `i` and longitude sample `j`, since no claim depends
  on the numeric coordinate values produced by `sin`/`cos`.
- Scalars fed to the STL encoder are `ℚ`; the IEEE-754 float32 byte encoding
  `struct.pack '<f'` is abstracted by a parameter `encF` that produces the
  4 bytes of one scalar, and `math.sqrt` inside the normal computation by a
  parameter `s` about which theorems assume only what `sqrt` guarantees
  (positive on positive input, zero at zero).
- Python exceptions (`ValueError` from `math.sqrt` of a negative number,
  `ZeroDivisionError` from `theta = pi*i/lat_divisions` when
  `lat_divisions = 0`) are modelled by `Except String`.
-/

namespace MeshGen

/-- A face: an ordered triple of 0-based vertex indices. -/
abbrev Face := ℕ × ℕ × ℕ

/-- The vertex loop of `generate_sphere_mesh` (source lines 57-68): for each
latitude ring `i ∈ [0, lat_divisions]` and each longitude sample
`j ∈ [0, lon_divisions)`, append the vertex at those spherical parameters,
in ring-major order.  The Cartesian position `(sin θ cos φ, sin θ sin φ, cos θ)`
is abstracted by `coord i j`. -/
def sphereVertices {V : Type} (coord : ℕ → ℕ → V) (lat lon : ℕ) : List V :=
  (List.range (lat + 1)).flatMap (fun i => (List.range lon).map (coord i))

/-- The face loop of `generate_sphere_mesh` (source lines 71-86): for each
ring pair `i ∈ [0, lat_divisions)` and longitude index `j`, the quad corners
`v1, v2, v3, v4`, with triangle `(v1,v2,v3)` emitted only when `i > 0` and
triangle `(v2,v4,v3)` only when `i < lat_divisions - 1`. -/
def sphereFaces (lat lon : ℕ) : List Face :=
  (List.range lat).flatMap (fun i =>
    (List.range lon).flatMap (fun j =>
      let v1 := i * lon + j
      let v2 := i * lon + (j + 1) % lon
      let v3 := (i + 1) * lon + j
      let v4 := (i + 1) * lon + (j + 1) % lon
      (if 0 < i then [(v1, v2, v3)] else []) ++
      (if i < lat - 1 then [(v2, v4, v3)] else [])))

/-- The function `generate_sphere_mesh` (source lines 33-86).  `int(math.sqrt(num_nodes))`
raises `ValueError` for negative input; with `lat_divisions = 0` the first
evaluation of `theta = math.pi * i / lat_divisions` raises
`ZeroDivisionError` before any vertex is appended.  Both failure modes are
modelled as `Except.error`. -/
def generate_sphere_mesh {V : Type} (coord : ℕ → ℕ → V) (num_nodes : ℤ) :
    Except String (List V × List Face) :=
  if num_nodes < 0 then
    .error "math domain error"
  else
    let d := Nat.sqrt num_nodes.toNat
    if d = 0 then
      .error "float division by zero"
    else
      .ok (sphereVertices coord d (2 * d), sphereFaces d (2 * d))

/-! ## Binary STL encoder (`write_stl_binary`, source lines 89-139) -/

/-- A 3-vector of scalars; the Python floats are modelled as `ℚ`. -/
abbrev Vec3 := ℚ × ℚ × ℚ

/-- Componentwise difference, as in `edge1 = (v2[0]-v1[0], v2[1]-v1[1], v2[2]-v1[2])`. -/
def vsub (a b : Vec3) : Vec3 := (a.1 - b.1, a.2.1 - b.2.1, a.2.2 - b.2.2)

/-- The cross product exactly as spelled out in source lines 117-121. -/
def cross (a b : Vec3) : Vec3 :=
  (a.2.1 * b.2.2 - a.2.2 * b.2.1,
   a.2.2 * b.1 - a.1 * b.2.2,
   a.1 * b.2.1 - a.2.1 * b.1)

/-- The argument of the square root in `length = math.sqrt(sum(n**2 for n in normal))`. -/
def sumSq (a : Vec3) : ℚ := a.1 ^ 2 + a.2.1 ^ 2 + a.2.2 ^ 2

/-- Componentwise division, as in `tuple(n / length for n in normal)`. -/
def vdiv (a : Vec3) (c : ℚ) : Vec3 := (a.1 / c, a.2.1 / c, a.2.2 / c)

/-- The per-face normal computation of `write_stl_binary` (source lines
113-128): the cross product of `edge1 = v2 - v1` and `edge2 = v3 - v1`,
divided by its Euclidean length when that is positive, and the fallback
`(0, 0, 1)` otherwise.  `s` abstracts `math.sqrt` on floats. -/
def stlNormal (s : ℚ → ℚ) (v1 v2 v3 : Vec3) : Vec3 :=
  let edge1 := vsub v2 v1
  let edge2 := vsub v3 v1
  let normal := cross edge1 edge2
  let length := s (sumSq normal)
  if 0 < length then vdiv normal length else (0, 0, 1)

/-- Bytes of `struct.pack '<I' n`: 4 little-endian base-256 digits.
(`struct.pack` raises for `n ≥ 2^32`; the wrap is made explicit by `%`.) -/
def u32le (n : ℕ) : List ℕ :=
  [n % 256, n / 256 % 256, n / 256 ^ 2 % 256, n / 256 ^ 3 % 256]

/-- Bytes of `struct.pack '<H' n` (used only with `n = 0` for the
attribute byte count). -/
def u16le (n : ℕ) : List ℕ := [n % 256, n / 256 % 256]

/-- Little-endian base-256 decoding, the inverse direction used to read the
triangle count back out of the artifact. -/
def fromLEBytes : List ℕ → ℕ
  | [] => 0
  | b :: bs => b + 256 * fromLEBytes bs

/-- The header text `f"Generated sphere mesh with {len(vertices)} nodes"`. -/
def headerText (nverts : ℕ) : String :=
  "Generated sphere mesh with " ++ toString nverts ++ " nodes"

/-- The 80 header bytes: the ASCII header text left-justified with NUL
padding to 80 (`.ljust(80, '\0')`), then truncated to 80 (`[:80]`). -/
def stlHeader (nverts : ℕ) : List ℕ :=
  let bs := (headerText nverts).toList.map Char.toNat
  (bs ++ List.replicate (80 - bs.length) 0).take 80

/-- Bytes of `struct.pack '<fff' v`: the three scalars in order, each through
the 4-byte float32 encoder `encF`. -/
def packVec3 (encF : ℚ → List ℕ) (v : Vec3) : List ℕ :=
  encF v.1 ++ encF v.2.1 ++ encF v.2.2

/-- One triangle record of `write_stl_binary` (source lines 110-139): normal
bytes, then the three face vertices in declared order, then the 2-byte
attribute byte count written as zero.  `vertices[i]` raises `IndexError`
out of range in Python; the model uses `getD`, and theorems that depend on
the lookups carry the in-range invariant. -/
def stlRecord (encF : ℚ → List ℕ) (s : ℚ → ℚ) (vertices : List Vec3)
    (face : Face) : List ℕ :=
  let v1 := vertices.getD face.1 (0, 0, 0)
  let v2 := vertices.getD face.2.1 (0, 0, 0)
  let v3 := vertices.getD face.2.2 (0, 0, 0)
  packVec3 encF (stlNormal s v1 v2 v3) ++
    (packVec3 encF v1 ++ packVec3 encF v2 ++ packVec3 encF v3) ++ u16le 0

/-- The function `write_stl_binary` (source lines 89-139): 80 header bytes,
4-byte little-endian triangle count, then one record per face. -/
def write_stl_binary (encF : ℚ → List ℕ) (s : ℚ → ℚ) (vertices : List Vec3)
    (faces : List Face) : List ℕ :=
  stlHeader vertices.length ++ u32le faces.length ++
    faces.flatMap (stlRecord encF s vertices)

/-! ## Indexed-face text encoder (`write_obj`, source lines 142-164) -/

/-- One output line of `write_obj`: a `#` comment line, a blank line, a
vertex line `v x y z` (the three formatted coordinates carried as the
scalar values), or a face line `f a b c` carrying the three references
exactly as written. -/
inductive ObjLine : Type
  | comment (text : String)
  | blank
  | vertex (v : Vec3)
  | face (a b c : ℕ)
deriving DecidableEq

/-- The function `write_obj` (source lines 142-164): two comment lines and a
blank line, one `v` line per vertex, a blank separator, then one `f` line
per face with each 0-based index written plus one. -/
def write_obj (vertices : List Vec3) (faces : List Face) : List ObjLine :=
  [ObjLine.comment ("Generated sphere mesh with " ++ toString vertices.length ++
      " vertices and " ++ toString faces.length ++ " faces"),
   ObjLine.comment "Created by generate_test_meshes.py",
   ObjLine.blank]
  ++ vertices.map ObjLine.vertex
  ++ [ObjLine.blank]
  ++ faces.map (fun t => ObjLine.face (t.1 + 1) (t.2.1 + 1) (t.2.2 + 1))

/-- The raw vertex references of a face line, as written in the artifact. -/
def objFaceRef : ObjLine → Option (ℕ × ℕ × ℕ)
  | .face a b c => some (a, b, c)
  | _ => none

/-- The vertex payload of a `v` line. -/
def objVertex : ObjLine → Option Vec3
  | .vertex v => some v
  | _ => none

/-- Modelled from the spec: the round-trip reader for the indexed-face text
artifact (spec §8, "parsing a written indexed-face text artifact must
reproduce the same vertex count and face count, with face indices correctly
converted back from 1-based to 0-based").  No parser exists in the source;
this reads the vertex lines as stored and subtracts one from each face
reference. -/
def parse_obj (ls : List ObjLine) : List Vec3 × List Face :=
  (ls.filterMap objVertex,
   ls.filterMap (fun l => (objFaceRef l).map
     (fun t => (t.1 - 1, t.2.1 - 1, t.2.2 - 1))))

/-! ## Structured polygon XML encoder (`write_vtp`, source lines 167-206) -/

/-- One output line of `write_vtp`, one constructor per `f.write` in the
source, in particular the piece element with its two count attributes, one
line per vertex in the points array, one connectivity line per face, and
one offsets line per face. -/
inductive VtpLine : Type
  | xmlDecl
  | openVTKFile
  | openPolyData
  | openPiece (numPoints numPolys : ℕ)
  | openPoints
  | openDataArrayPoints
  | point (v : Vec3)
  | closeDataArray
  | closePoints
  | openPolys
  | openDataArrayConnectivity
  | connRow (a b c : ℕ)
  | openDataArrayOffsets
  | offsetRow (n : ℕ)
  | closePolys
  | closePiece
  | closePolyData
  | closeVTKFile
deriving DecidableEq

/-- The function `write_vtp` (source lines 167-206), line for line: the
connectivity rows are the face indices as stored (0-based), and the offsets
rows are `i * 3` for `i` in `range(1, len(faces) + 1)`. -/
def write_vtp (vertices : List Vec3) (faces : List Face) : List VtpLine :=
  [VtpLine.xmlDecl, VtpLine.openVTKFile, VtpLine.openPolyData,
   VtpLine.openPiece vertices.length faces.length,
   VtpLine.openPoints, VtpLine.openDataArrayPoints]
  ++ vertices.map VtpLine.point
  ++ [VtpLine.closeDataArray, VtpLine.closePoints, VtpLine.openPolys,
      VtpLine.openDataArrayConnectivity]
  ++ faces.map (fun t => VtpLine.connRow t.1 t.2.1 t.2.2)
  ++ [VtpLine.closeDataArray, VtpLine.openDataArrayOffsets]
  ++ (List.range' 1 faces.length).map (fun i => VtpLine.offsetRow (i * 3))
  ++ [VtpLine.closeDataArray, VtpLine.closePolys, VtpLine.closePiece,
      VtpLine.closePolyData, VtpLine.closeVTKFile]

/-- The offsets array of the artifact, in order. -/
def vtpOffsets (ls : List VtpLine) : List ℕ :=
  ls.filterMap (fun l => match l with | .offsetRow n => some n | _ => none)

/-- The connectivity array of the artifact, one row per face. -/
def vtpConnectivity (ls : List VtpLine) : List Face :=
  ls.filterMap (fun l => match l with | .connRow a b c => some (a, b, c) | _ => none)

/-- Whether vertex index `k` is referenced by some face of `faces`. -/
def isReferenced (faces : List Face) (k : ℕ) : Bool :=
  faces.any (fun t => t.1 == k || t.2.1 == k || t.2.2 == k)

/-! ## Counting lemmas for the generator -/

theorem sphereVertices_length {V : Type} (coord : ℕ → ℕ → V) (lat lon : ℕ) :
    (sphereVertices coord lat lon).length = (lat + 1) * lon := by
  unfold sphereVertices
  induction lat + 1 with
  | zero => simp
  | succ m ih =>
      rw [List.range_succ, List.flatMap_append]
      simp [ih, Nat.succ_mul]

theorem length_flatMap_const {α β : Type} (l : List α) (f : α → List β) (c : ℕ)
    (h : ∀ a ∈ l, (f a).length = c) : (l.flatMap f).length = l.length * c := by
  induction l with
  | nil => simp
  | cons a l ih =>
      rw [List.flatMap_cons, List.length_append, h a (by simp),
        ih (fun b hb => h b (by simp [hb]))]
      simp [Nat.succ_mul, Nat.add_comm]

/-- Per ring pair `i`, the face loop emits
`lon * ((if 0 < i then 1 else 0) + (if i < m then 1 else 0))` faces; summing
over `i < n` gives `lon * ((n - 1) + min m n)`. -/
theorem facesSum (lon m : ℕ) : ∀ n : ℕ,
    ((List.range n).map
      (fun i => lon * ((if 0 < i then 1 else 0) + (if i < m then 1 else 0)))).sum
      = lon * ((n - 1) + min m n) := by
  intro n
  induction n with
  | zero => simp
  | succ n ih =>
      rw [List.range_succ, List.map_append, List.sum_append, ih]
      simp only [List.map_cons, List.map_nil, List.sum_cons, List.sum_nil,
        Nat.add_zero]
      rw [← Nat.mul_add]
      congr 1
      split_ifs <;> omega

theorem sphereFaces_length (lat lon : ℕ) :
    (sphereFaces lat lon).length = 2 * lon * (lat - 1) := by
  unfold sphereFaces
  rw [List.length_flatMap]
  have hmap : (List.range lat).map
      (List.length ∘ fun i =>
        (List.range lon).flatMap (fun j =>
          (if 0 < i then [(i * lon + j, i * lon + (j + 1) % lon, (i + 1) * lon + j)] else []) ++
          (if i < lat - 1 then
            [(i * lon + (j + 1) % lon, (i + 1) * lon + (j + 1) % lon, (i + 1) * lon + j)]
          else [])))
      = (List.range lat).map
        (fun i => lon * ((if 0 < i then 1 else 0) + (if i < lat - 1 then 1 else 0))) := by
    refine List.map_congr_left (fun i _ => ?_)
    simp only [Function.comp_apply]
    rw [length_flatMap_const _ _ ((if 0 < i then 1 else 0) + (if i < lat - 1 then 1 else 0))
      (fun j _ => by rw [List.length_append]; congr 1 <;> split <;> simp)]
    simp [List.length_range, Nat.mul_comm]
  rw [hmap, facesSum]
  rw [Nat.min_eq_left (Nat.sub_le lat 1)]
  ring

/-- Any vertex index of the form `a * lon + b` with `a ≤ lat` and `b < lon`
is a valid index into the `(lat+1) * lon` vertices. -/
theorem grid_index_lt (lat lon a b : ℕ) (ha : a ≤ lat) (hb : b < lon) :
    a * lon + b < (lat + 1) * lon := by
  calc a * lon + b < a * lon + lon := by omega
    _ = (a + 1) * lon := by ring
    _ ≤ (lat + 1) * lon := Nat.mul_le_mul_right lon (by omega)

/-- Every index in every face of `sphereFaces lat lon` is below
`(lat+1) * lon`, the number of generated vertices (for `lon > 0`). -/
theorem mem_sphereFaces_lt (lat lon : ℕ) (hlon : 0 < lon) (t : Face)
    (ht : t ∈ sphereFaces lat lon) :
    t.1 < (lat + 1) * lon ∧ t.2.1 < (lat + 1) * lon ∧ t.2.2 < (lat + 1) * lon := by
  simp only [sphereFaces, List.mem_flatMap, List.mem_range, List.mem_append] at ht
  obtain ⟨i, hi, j, hj, hcase⟩ := ht
  have hmod : (j + 1) % lon < lon := Nat.mod_lt _ hlon
  rcases hcase with hmem | hmem <;>
    [skip; skip] <;>
    · rw [List.mem_ite_nil_right] at hmem
      obtain ⟨-, hmem⟩ := hmem
      simp only [List.mem_singleton] at hmem
      subst hmem
      refine ⟨?_, ?_, ?_⟩ <;>
        exact grid_index_lt lat lon _ _ (by omega) (by omega)

/-! ## Byte-layout lemmas for the binary STL encoder -/

theorem stlHeader_length (nverts : ℕ) : (stlHeader nverts).length = 80 := by
  unfold stlHeader
  simp only [List.length_take, List.length_append, List.length_replicate]
  omega

theorem packVec3_length (encF : ℚ → List ℕ) (h4 : ∀ x, (encF x).length = 4)
    (v : Vec3) : (packVec3 encF v).length = 12 := by
  simp [packVec3, h4]

theorem stlRecord_length (encF : ℚ → List ℕ) (s : ℚ → ℚ) (vertices : List Vec3)
    (h4 : ∀ x, (encF x).length = 4) (t : Face) :
    (stlRecord encF s vertices t).length = 50 := by
  simp [stlRecord, packVec3_length encF h4, u16le]

theorem fromLEBytes_u32le (n : ℕ) (h : n < 2 ^ 32) :
    fromLEBytes (u32le n) = n := by
  simp only [u32le, fromLEBytes]
  omega

/-- Slicing a `flatMap` of constant-length blocks at block boundaries
recovers the `k`-th block. -/
theorem flatMap_slice {α β : Type} (f : α → List β) (c : ℕ) :
    ∀ (l : List α) (k : ℕ) (hk : k < l.length),
      (∀ a ∈ l, (f a).length = c) →
      ((l.flatMap f).drop (c * k)).take c = f (l.get ⟨k, hk⟩) := by
  intro l
  induction l with
  | nil => intro k hk; simp at hk
  | cons a l ih =>
      intro k hk hlen
      have ha : (f a).length = c := hlen a (by simp)
      cases k with
      | zero =>
          rw [List.flatMap_cons, Nat.mul_zero, List.drop_zero, List.take_left' ha]
          rfl
      | succ k =>
          have hk' : k < l.length := by simpa using hk
          have hstep : c * (k + 1) = (f a).length + c * k := by rw [ha]; ring
          rw [List.flatMap_cons, hstep, ← List.drop_drop, List.drop_left]
          exact ih k hk' (fun b hb => hlen b (by simp [hb]))

/-- Claim C2: the binary triangle artifact is exactly 80 header bytes, the
4-byte little-endian face count, then one 50-byte record per face laid out
as 12 normal bytes, 36 bytes holding the three face vertices in declared
order, and a 2-byte reserved field written as zero; the total size is
`84 + 50 * face_count` bytes.  (`encF` is the 4-byte float32 encoding; the
face count must fit `struct.pack '<I'`.) -/
theorem claim_C2_stl_layout (encF : ℚ → List ℕ) (s : ℚ → ℚ)
    (vertices : List Vec3) (faces : List Face)
    (h4 : ∀ x, (encF x).length = 4) (hcount : faces.length < 2 ^ 32) :
    ((write_stl_binary encF s vertices faces).length = 84 + 50 * faces.length)
    ∧ ((write_stl_binary encF s vertices faces).take 80 = stlHeader vertices.length
        ∧ (stlHeader vertices.length).length = 80)
    ∧ (((write_stl_binary encF s vertices faces).drop 80).take 4 = u32le faces.length
        ∧ fromLEBytes (u32le faces.length) = faces.length)
    ∧ (∀ k (hk : k < faces.length),
        ((write_stl_binary encF s vertices faces).drop (84 + 50 * k)).take 50
          = stlRecord encF s vertices (faces.get ⟨k, hk⟩))
    ∧ (∀ t ∈ faces,
        (stlRecord encF s vertices t).length = 50
        ∧ (stlRecord encF s vertices t).take 12
            = packVec3 encF (stlNormal s (vertices.getD t.1 (0, 0, 0))
                (vertices.getD t.2.1 (0, 0, 0)) (vertices.getD t.2.2 (0, 0, 0)))
        ∧ ((stlRecord encF s vertices t).drop 12).take 36
            = packVec3 encF (vertices.getD t.1 (0, 0, 0))
                ++ packVec3 encF (vertices.getD t.2.1 (0, 0, 0))
                ++ packVec3 encF (vertices.getD t.2.2 (0, 0, 0))
        ∧ (stlRecord encF s vertices t).drop 48 = [0, 0]) := by
  have hrec : ∀ t : Face, (stlRecord encF s vertices t).length = 50 :=
    stlRecord_length encF s vertices h4
  have hflat : (faces.flatMap (stlRecord encF s vertices)).length
      = faces.length * 50 :=
    length_flatMap_const faces _ 50 (fun t _ => hrec t)
  have hhdr : (stlHeader vertices.length).length = 80 := stlHeader_length _
  have hu32 : (u32le faces.length).length = 4 := by simp [u32le]
  refine ⟨?_, ⟨?_, hhdr⟩, ⟨?_, fromLEBytes_u32le _ hcount⟩, ?_, ?_⟩
  · simp only [write_stl_binary, List.length_append, hflat, hhdr, hu32]
    omega
  · rw [write_stl_binary, List.append_assoc, List.take_left' hhdr]
  · rw [write_stl_binary, List.append_assoc, List.drop_left' hhdr]
    exact List.take_left' hu32
  · intro k hk
    have hsplit : 84 + 50 * k
        = (stlHeader vertices.length ++ u32le faces.length).length + 50 * k := by
      simp [List.length_append, hhdr, hu32]
    rw [write_stl_binary, hsplit, ← List.drop_drop, List.drop_left]
    exact flatMap_slice _ 50 faces k hk (fun t _ => hrec t)
  · intro t _
    have h12n : (packVec3 encF (stlNormal s (vertices.getD t.1 (0, 0, 0))
        (vertices.getD t.2.1 (0, 0, 0)) (vertices.getD t.2.2 (0, 0, 0)))).length = 12 :=
      packVec3_length encF h4 _
    have h36 : (packVec3 encF (vertices.getD t.1 (0, 0, 0))
        ++ packVec3 encF (vertices.getD t.2.1 (0, 0, 0))
        ++ packVec3 encF (vertices.getD t.2.2 (0, 0, 0))).length = 36 := by
      simp [List.length_append, packVec3_length encF h4]
    refine ⟨hrec t, ?_, ?_, ?_⟩
    · rw [stlRecord, List.append_assoc, List.take_left' h12n]
    · rw [stlRecord, List.append_assoc, List.drop_left' h12n]
      exact List.take_left' h36
    · have h48 : 48 = (packVec3 encF (stlNormal s (vertices.getD t.1 (0, 0, 0))
          (vertices.getD t.2.1 (0, 0, 0)) (vertices.getD t.2.2 (0, 0, 0)))
          ++ (packVec3 encF (vertices.getD t.1 (0, 0, 0))
            ++ packVec3 encF (vertices.getD t.2.1 (0, 0, 0))
            ++ packVec3 encF (vertices.getD t.2.2 (0, 0, 0)))).length := by
        simp [List.length_append, packVec3_length encF h4]
      rw [stlRecord, h48, List.drop_left]
      rfl

theorem claim_C2_witness :
    (∀ x : ℚ, ((fun _ : ℚ => [0, 0, 0, 0]) x).length = 4) ∧
    ([((0 : ℕ), (0 : ℕ), (0 : ℕ))] : List Face).length < 2 ^ 32 ∧
    (write_stl_binary (fun _ => [0, 0, 0, 0]) (fun x => x) [((0 : ℚ), (0 : ℚ), (0 : ℚ))]
      [(0, 0, 0)]).length = 84 + 50 * ([((0 : ℕ), (0 : ℕ), (0 : ℕ))] : List Face).length :=
  ⟨fun _ => rfl, by norm_num,
    (claim_C2_stl_layout (fun _ => [0, 0, 0, 0]) (fun x => x)
      [((0 : ℚ), (0 : ℚ), (0 : ℚ))] [(0, 0, 0)] (fun _ => rfl) (by norm_num)).1⟩

/-- Claim C4: the per-face normal of the binary encoder is the normalized
cross product of `edge1 = v2 - v1` and `edge2 = v3 - v1`; the division is
guarded, so a degenerate face (cross product of squared length zero) yields
the fallback `(0, 0, 1)` instead of a division by zero, and the computation
is total.  `s` is any function with the sign behaviour of `math.sqrt`. -/
theorem claim_C4_normal_guard (s : ℚ → ℚ) (v1 v2 v3 : Vec3)
    (hs0 : s 0 = 0) (hspos : ∀ x : ℚ, 0 < x → 0 < s x) :
    (sumSq (cross (vsub v2 v1) (vsub v3 v1)) = 0 →
      stlNormal s v1 v2 v3 = (0, 0, 1))
    ∧ (sumSq (cross (vsub v2 v1) (vsub v3 v1)) ≠ 0 →
      stlNormal s v1 v2 v3
        = vdiv (cross (vsub v2 v1) (vsub v3 v1))
            (s (sumSq (cross (vsub v2 v1) (vsub v3 v1))))) := by
  constructor
  · intro hzero
    rw [stlNormal]
    simp only [hzero, hs0]
    norm_num
  · intro hne
    have hnonneg : 0 ≤ sumSq (cross (vsub v2 v1) (vsub v3 v1)) := by
      unfold sumSq
      positivity
    have hpos : 0 < sumSq (cross (vsub v2 v1) (vsub v3 v1)) :=
      lt_of_le_of_ne hnonneg (Ne.symm hne)
    rw [stlNormal]
    simp only [hspos _ hpos, if_pos]

theorem claim_C4_witness :
    stlNormal (fun x => x) ((0 : ℚ), (0 : ℚ), (0 : ℚ)) (0, 0, 0) (0, 0, 0) = (0, 0, 1) :=
  (claim_C4_normal_guard (fun x => x) (0, 0, 0) (0, 0, 0) (0, 0, 0) rfl
    (fun _ hx => hx)).1 (by norm_num [sumSq, cross, vsub])

/-! ## Claim theorems about the generator -/

/-- Claim C1: for every target vertex count `N ≥ 1`, the mesh generator
succeeds and returns a vertex list of length
`(floor(sqrt N) + 1) * 2 * floor(sqrt N)` exactly. -/
theorem claim_C1_vertex_count {V : Type} (coord : ℕ → ℕ → V) (n : ℤ) (h : 1 ≤ n) :
    ∃ verts faces, generate_sphere_mesh coord n = .ok (verts, faces) ∧
      verts.length = (Nat.sqrt n.toNat + 1) * (2 * Nat.sqrt n.toNat) := by
  have h0 : ¬ n < 0 := by omega
  have hd : ¬ Nat.sqrt n.toNat = 0 := by
    have hpos : 0 < n.toNat := by omega
    exact Nat.pos_iff_ne_zero.mp (Nat.sqrt_pos.mpr hpos)
  refine ⟨sphereVertices coord (Nat.sqrt n.toNat) (2 * Nat.sqrt n.toNat),
    sphereFaces (Nat.sqrt n.toNat) (2 * Nat.sqrt n.toNat), ?_,
    sphereVertices_length coord _ _⟩
  simp [generate_sphere_mesh, h0, hd]

theorem claim_C1_witness : (1 : ℤ) ≤ 10 ∧
    ∃ verts faces,
      generate_sphere_mesh (fun i j => (i, j)) 10 = .ok (verts, faces) ∧
      verts.length = (Nat.sqrt (Int.toNat 10) + 1) * (2 * Nat.sqrt (Int.toNat 10)) :=
  ⟨by decide, claim_C1_vertex_count (fun i j => (i, j)) 10 (by decide)⟩

/-- Claim C3: for every target vertex count `N ≥ 1`, every index appearing in
any face triple of the generated mesh lies in `[0, vertex_count)`. -/
theorem claim_C3_face_indices_in_range {V : Type} (coord : ℕ → ℕ → V) (n : ℤ)
    (h : 1 ≤ n) :
    ∃ verts faces, generate_sphere_mesh coord n = .ok (verts, faces) ∧
      ∀ t ∈ faces, t.1 < verts.length ∧ t.2.1 < verts.length ∧ t.2.2 < verts.length := by
  have h0 : ¬ n < 0 := by omega
  have hpos : 0 < n.toNat := by omega
  have hdpos : 0 < Nat.sqrt n.toNat := Nat.sqrt_pos.mpr hpos
  have hd : ¬ Nat.sqrt n.toNat = 0 := Nat.pos_iff_ne_zero.mp hdpos
  refine ⟨sphereVertices coord (Nat.sqrt n.toNat) (2 * Nat.sqrt n.toNat),
    sphereFaces (Nat.sqrt n.toNat) (2 * Nat.sqrt n.toNat),
    by simp [generate_sphere_mesh, h0, hd], fun t ht => ?_⟩
  rw [sphereVertices_length]
  exact mem_sphereFaces_lt _ _ (by omega) t ht

theorem claim_C3_witness : (1 : ℤ) ≤ 4 ∧
    ∃ verts faces,
      generate_sphere_mesh (fun i j => (i, j)) 4 = .ok (verts, faces) ∧
      ∀ t ∈ faces, t.1 < verts.length ∧ t.2.1 < verts.length ∧ t.2.2 < verts.length :=
  ⟨by decide, claim_C3_face_indices_in_range (fun i j => (i, j)) 4 (by decide)⟩

/-- Claim C7: for every non-positive target vertex count the generator fails
(with the `ValueError` raised by `math.sqrt` on negative input, or the
`ZeroDivisionError` raised by `theta = pi*i/lat_divisions` when the grid is
zero-size) before emitting any mesh. -/
theorem claim_C7_nonpositive_fails {V : Type} (coord : ℕ → ℕ → V) (n : ℤ)
    (h : n ≤ 0) : ∃ e, generate_sphere_mesh coord n = .error e := by
  by_cases hneg : n < 0
  · exact ⟨"math domain error", by simp [generate_sphere_mesh, hneg]⟩
  · have h0 : n = 0 := by omega
    subst h0
    exact ⟨"float division by zero", by simp [generate_sphere_mesh]⟩

theorem claim_C7_witness : (0 : ℤ) ≤ 0 ∧
    ∃ e, generate_sphere_mesh (fun i j => (i, j)) 0 = .error e :=
  ⟨by decide, claim_C7_nonpositive_fails (fun i j => (i, j)) 0 (by decide)⟩

/-- Claim C9: for every target vertex count `N` with `1 ≤ N ≤ 3` (grid
resolution `d = 1`, so `lat_divisions = 1`, `lon_divisions = 2`), the
generator succeeds with exactly 4 vertices and an empty face list. -/
theorem claim_C9_tiny_grid {V : Type} (coord : ℕ → ℕ → V) (n : ℤ)
    (h1 : 1 ≤ n) (h3 : n ≤ 3) :
    ∃ verts, generate_sphere_mesh coord n = .ok (verts, []) ∧ verts.length = 4 := by
  have h0 : ¬ n < 0 := by omega
  have ht : n.toNat = 1 ∨ n.toNat = 2 ∨ n.toNat = 3 := by omega
  have hs : Nat.sqrt n.toNat = 1 := by
    symm
    rw [Nat.eq_sqrt]
    omega
  have hf : sphereFaces 1 (2 * 1) = [] := by decide
  refine ⟨sphereVertices coord 1 (2 * 1), ?_, ?_⟩
  · simp [generate_sphere_mesh, h0, hs, hf]
  · rw [sphereVertices_length]

theorem claim_C9_witness : (1 : ℤ) ≤ 2 ∧ (2 : ℤ) ≤ 3 ∧
    ∃ verts, generate_sphere_mesh (fun i j => (i, j)) 2 = .ok (verts, []) ∧
      verts.length = 4 :=
  ⟨by decide, by decide, claim_C9_tiny_grid (fun i j => (i, j)) 2 (by decide) (by decide)⟩

/-- Claim C10: for every target vertex count `N ≥ 1`, the generated face count
equals `4 * d * (d - 1)` where `d = floor(sqrt N)`. -/
theorem claim_C10_face_count {V : Type} (coord : ℕ → ℕ → V) (n : ℤ) (h : 1 ≤ n) :
    ∃ verts faces, generate_sphere_mesh coord n = .ok (verts, faces) ∧
      faces.length = 4 * Nat.sqrt n.toNat * (Nat.sqrt n.toNat - 1) := by
  have h0 : ¬ n < 0 := by omega
  have hd : ¬ Nat.sqrt n.toNat = 0 := by
    have hpos : 0 < n.toNat := by omega
    exact Nat.pos_iff_ne_zero.mp (Nat.sqrt_pos.mpr hpos)
  refine ⟨sphereVertices coord (Nat.sqrt n.toNat) (2 * Nat.sqrt n.toNat),
    sphereFaces (Nat.sqrt n.toNat) (2 * Nat.sqrt n.toNat),
    by simp [generate_sphere_mesh, h0, hd], ?_⟩
  rw [sphereFaces_length]
  ring

theorem claim_C10_witness : (1 : ℤ) ≤ 10 ∧
    ∃ verts faces,
      generate_sphere_mesh (fun i j => (i, j)) 10 = .ok (verts, faces) ∧
      faces.length = 4 * Nat.sqrt (Int.toNat 10) * (Nat.sqrt (Int.toNat 10) - 1) :=
  ⟨by decide, claim_C10_face_count (fun i j => (i, j)) 10 (by decide)⟩

/-! ## Claim theorems about the text encoders -/

theorem filterMap_const_none {α β : Type} (l : List α) :
    l.filterMap (fun _ => (none : Option β)) = [] := by
  induction l <;> simp [List.filterMap_cons, *]

theorem filterMap_some_comp {α β : Type} (f : α → β) (l : List α) :
    l.filterMap (fun x => some (f x)) = l.map f := by
  induction l <;> simp [List.filterMap_cons, *]

/-- Claim C5: every face line of the indexed-face text artifact carries the
0-based indices plus one, and parsing the artifact (subtracting one from
each face reference) recovers the original vertices, faces, and counts. -/
theorem claim_C5_obj_roundtrip (vertices : List Vec3) (faces : List Face) :
    parse_obj (write_obj vertices faces) = (vertices, faces)
    ∧ (write_obj vertices faces).filterMap objFaceRef
        = faces.map (fun t => (t.1 + 1, t.2.1 + 1, t.2.2 + 1))
    ∧ (parse_obj (write_obj vertices faces)).1.length = vertices.length
    ∧ (parse_obj (write_obj vertices faces)).2.length = faces.length := by
  have hfa : (write_obj vertices faces).filterMap objFaceRef
      = faces.map (fun t => (t.1 + 1, t.2.1 + 1, t.2.2 + 1)) := by
    simp [write_obj, objFaceRef, List.filterMap_append, List.filterMap_map,
      Function.comp_def, filterMap_const_none, filterMap_some_comp]
  have hpar : parse_obj (write_obj vertices faces) = (vertices, faces) := by
    simp [parse_obj, write_obj, objVertex, objFaceRef, List.filterMap_append,
      List.filterMap_map, Function.comp_def, filterMap_const_none,
      filterMap_some_comp]
  exact ⟨hpar, hfa, by rw [hpar], by rw [hpar]⟩

/-- Claim C6: the offsets array of the structured polygon artifact has one
entry per face, the entry at 0-based index `k` equals `3 * (k + 1)`, and the
connectivity array holds each face's three 0-based indices unchanged. -/
theorem claim_C6_vtp_arrays (vertices : List Vec3) (faces : List Face) :
    vtpOffsets (write_vtp vertices faces)
        = (List.range' 1 faces.length).map (fun i => i * 3)
    ∧ (vtpOffsets (write_vtp vertices faces)).length = faces.length
    ∧ (∀ k, k < faces.length →
        (vtpOffsets (write_vtp vertices faces)).getD k 0 = 3 * (k + 1))
    ∧ vtpConnectivity (write_vtp vertices faces) = faces := by
  have hoff : vtpOffsets (write_vtp vertices faces)
      = (List.range' 1 faces.length).map (fun i => i * 3) := by
    simp [vtpOffsets, write_vtp, List.filterMap_append, List.filterMap_map,
      Function.comp_def, filterMap_const_none, filterMap_some_comp]
  have hconn : vtpConnectivity (write_vtp vertices faces) = faces := by
    simp [vtpConnectivity, write_vtp, List.filterMap_append, List.filterMap_map,
      Function.comp_def, filterMap_const_none, filterMap_some_comp]
  refine ⟨hoff, ?_, ?_, hconn⟩
  · rw [hoff]; simp [List.length_range']
  · intro k hk
    rw [hoff]
    have hk' : k < ((List.range' 1 faces.length).map (fun i => i * 3)).length := by
      simpa [List.length_range'] using hk
    rw [List.getD_eq_getElem _ _ hk']
    simp only [List.getElem_map]
    rw [List.getElem_range'_1]
    ring

theorem claim_C6_witness :
    (vtpOffsets (write_vtp [] [((0 : ℕ), (0 : ℕ), (0 : ℕ))])).getD 0 0 = 3 * (0 + 1) :=
  (claim_C6_vtp_arrays [] [(0, 0, 0)]).2.2.1 0 (by norm_num)

/-! ## Claim C8: pole-ring vertices and their referencing faces -/

/-- Membership of the first triangle kind `(v1, v2, v3)` (emitted for
`i > 0`) in the face list. -/
theorem tri1_mem (lat lon i j : ℕ) (hi : i < lat) (hj : j < lon) (h0 : 0 < i) :
    (i * lon + j, i * lon + (j + 1) % lon, (i + 1) * lon + j) ∈ sphereFaces lat lon := by
  simp only [sphereFaces, List.mem_flatMap, List.mem_range, List.mem_append]
  exact ⟨i, hi, j, hj, Or.inl (by simp [h0])⟩

/-- Membership of the second triangle kind `(v2, v4, v3)` (emitted for
`i < lat - 1`) in the face list. -/
theorem tri2_mem (lat lon i j : ℕ) (hi : i < lat) (hj : j < lon) (h2 : i < lat - 1) :
    (i * lon + (j + 1) % lon, (i + 1) * lon + (j + 1) % lon, (i + 1) * lon + j)
      ∈ sphereFaces lat lon := by
  simp only [sphereFaces, List.mem_flatMap, List.mem_range, List.mem_append]
  exact ⟨i, hi, j, hj, Or.inr (by simp [h2])⟩

/-- Stepping one longitude sample back and wrapping forward is the identity:
for `k < L`, `((k + L - 1) % L + 1) % L = k`. -/
theorem mod_cycle (L k : ℕ) (hL : 0 < L) (hk : k < L) :
    ((k + L - 1) % L + 1) % L = k := by
  rcases Nat.eq_zero_or_pos k with rfl | hk0
  · have hin : (L - 1) % L = L - 1 := Nat.mod_eq_of_lt (by omega)
    have hL1 : L - 1 + 1 = L := by omega
    rw [Nat.zero_add, hin, hL1, Nat.mod_self]
  · have h1 : k + L - 1 = (k - 1) + L := by omega
    have hin : (k - 1) % L = k - 1 := Nat.mod_eq_of_lt (by omega)
    have h2 : k - 1 + 1 = k := by omega
    rw [h1, Nat.add_mod_right, hin, h2, Nat.mod_eq_of_lt hk]

/-- Claim C8 (amended): for every `N ≥ 1` the generator does emit
`lon_divisions` vertices per pole ring (so the pole rings hold redundant
coincident vertices), but whenever `d = floor(sqrt N) ≥ 2` every pole-ring
vertex IS referenced by some face — the `i > 0` / `i < lat_divisions - 1`
comparisons only suppress the degenerate triangles, and the remaining fan
triangles reference the pole-ring vertices.  (Only for `d = 1`, where the
face list is empty, are the pole vertices unreferenced.) -/
theorem claim_C8_pole_vertices_referenced {V : Type} (coord : ℕ → ℕ → V)
    (n : ℤ) (h : 1 ≤ n) (hd2 : 2 ≤ Nat.sqrt n.toNat) :
    ∃ verts faces, generate_sphere_mesh coord n = .ok (verts, faces) ∧
      verts.length = (Nat.sqrt n.toNat + 1) * (2 * Nat.sqrt n.toNat) ∧
      (∀ k, k < 2 * Nat.sqrt n.toNat →
        ∃ t ∈ faces, t.1 = k ∨ t.2.1 = k ∨ t.2.2 = k) ∧
      (∀ k, Nat.sqrt n.toNat * (2 * Nat.sqrt n.toNat) ≤ k →
        k < (Nat.sqrt n.toNat + 1) * (2 * Nat.sqrt n.toNat) →
        ∃ t ∈ faces, t.1 = k ∨ t.2.1 = k ∨ t.2.2 = k) := by
  have h0 : ¬ n < 0 := by omega
  have hd : ¬ Nat.sqrt n.toNat = 0 := by omega
  have hL : 0 < 2 * Nat.sqrt n.toNat := by omega
  refine ⟨sphereVertices coord (Nat.sqrt n.toNat) (2 * Nat.sqrt n.toNat),
    sphereFaces (Nat.sqrt n.toNat) (2 * Nat.sqrt n.toNat),
    by simp [generate_sphere_mesh, h0, hd],
    sphereVertices_length coord _ _, ?_, ?_⟩
  · intro k hk
    have hj : (k + 2 * Nat.sqrt n.toNat - 1) % (2 * Nat.sqrt n.toNat)
        < 2 * Nat.sqrt n.toNat := Nat.mod_lt _ hL
    have hmem := tri2_mem (Nat.sqrt n.toNat) (2 * Nat.sqrt n.toNat) 0
      ((k + 2 * Nat.sqrt n.toNat - 1) % (2 * Nat.sqrt n.toNat)) (by omega) hj (by omega)
    refine ⟨_, hmem, Or.inl ?_⟩
    simp only [Nat.zero_mul, Nat.zero_add]
    exact mod_cycle _ k hL hk
  · intro k hk1 hk2
    have hexp : (Nat.sqrt n.toNat + 1) * (2 * Nat.sqrt n.toNat)
        = Nat.sqrt n.toNat * (2 * Nat.sqrt n.toNat) + 2 * Nat.sqrt n.toNat := by ring
    have hj : k - Nat.sqrt n.toNat * (2 * Nat.sqrt n.toNat) < 2 * Nat.sqrt n.toNat := by
      omega
    have hmem := tri1_mem (Nat.sqrt n.toNat) (2 * Nat.sqrt n.toNat)
      (Nat.sqrt n.toNat - 1) (k - Nat.sqrt n.toNat * (2 * Nat.sqrt n.toNat))
      (by omega) hj (by omega)
    refine ⟨_, hmem, Or.inr (Or.inr ?_)⟩
    have hd1 : Nat.sqrt n.toNat - 1 + 1 = Nat.sqrt n.toNat := by omega
    simp only [hd1]
    exact Nat.add_sub_cancel' hk1

theorem claim_C8_amended_witness : (1 : ℤ) ≤ 4 ∧ 2 ≤ Nat.sqrt (Int.toNat 4) ∧
    ∃ verts faces,
      generate_sphere_mesh (fun i j => (i, j)) 4 = .ok (verts, faces) ∧
      verts.length = (Nat.sqrt (Int.toNat 4) + 1) * (2 * Nat.sqrt (Int.toNat 4)) ∧
      (∀ k, k < 2 * Nat.sqrt (Int.toNat 4) →
        ∃ t ∈ faces, t.1 = k ∨ t.2.1 = k ∨ t.2.2 = k) ∧
      (∀ k, Nat.sqrt (Int.toNat 4) * (2 * Nat.sqrt (Int.toNat 4)) ≤ k →
        k < (Nat.sqrt (Int.toNat 4) + 1) * (2 * Nat.sqrt (Int.toNat 4)) →
        ∃ t ∈ faces, t.1 = k ∨ t.2.1 = k ∨ t.2.2 = k) :=
  ⟨by decide, Nat.le_sqrt.mpr (by decide),
    claim_C8_pole_vertices_referenced (fun i j => (i, j)) 4 (by decide)
      (Nat.le_sqrt.mpr (by decide))⟩

/-- Claim C8 as stated is false: at target count `N = 4` the generator
succeeds and EVERY vertex index — in particular every pole-ring vertex — is
referenced by some face, so the mesh contains no
present-but-unreferenced pole vertices. -/
theorem claim_C8_counterexample :
    generate_sphere_mesh (fun i j => (i, j)) 4
      = .ok (sphereVertices (fun i j => (i, j)) 2 (2 * 2), sphereFaces 2 (2 * 2))
    ∧ (∀ k, k < (2 + 1) * (2 * 2) →
        isReferenced (sphereFaces 2 (2 * 2)) k = true) := by
  constructor
  · have h4 : Nat.sqrt (Int.toNat 4) = 2 := by
      symm
      rw [Nat.eq_sqrt]
      constructor <;> decide
    norm_num [generate_sphere_mesh, h4]
  · decide

end MeshGen
